import Mathlib

/-!
Verification of `src/06-objects-tasks.js`: a CSS selector builder with an
ordering/uniqueness state machine, a `Rectangle` constructor, and JSON
serialize/deserialize helpers.

The `Selector` class holds two mutable fields, `resultSelector : String`
(initially `''`) and `currentSelectorInQueue : Nat` (initially `0`).
Each fragment method first calls `checkSelectorsQueue`, which may throw,
and then assigns both fields.  We embed each method as a function
`Selector → String → Option String × Selector`: the first component is the
thrown error message (`none` when no throw), the second the object state
after the call (thrown errors occur before any field assignment, so on a
throw the state is returned unchanged, exactly as in the source).
-/

structure Selector where
  resultSelector : String
  currentSelectorInQueue : Nat
deriving DecidableEq, Repr

/-- Message of the error thrown on a repeat violation (source line 122). -/
def errorMessageForRepeat : String :=
  "Element, id and pseudo-element should not occur more then one time inside the selector"

/-- Message of the error thrown on a sequence violation (source line 123). -/
def errorMessageForSequence : String :=
  "Selector parts should be arranged in the following order: element, id, class, attribute, pseudo-class, pseudo-element"

namespace Selector

/-- `new Selector()`: empty text, queue position 0. -/
def new : Selector := { resultSelector := "", currentSelectorInQueue := 0 }

/-- `checkSelectorsQueue(nextSelectorInQueue)` (source lines 126-136). -/
def checkSelectorsQueue (s : Selector) (nextSelectorInQueue : Nat) : Except String Unit :=
  if s.currentSelectorInQueue > nextSelectorInQueue then
    .error errorMessageForSequence
  else if s.currentSelectorInQueue = nextSelectorInQueue
      ∧ (nextSelectorInQueue = 1 ∨ nextSelectorInQueue = 2 ∨ nextSelectorInQueue = 6) then
    .error errorMessageForRepeat
  else
    .ok ()

/-- `element(value)` (source lines 138-143); note `resultSelector = value`
assigns the value, it does not append it. -/
def element (s : Selector) (value : String) : Option String × Selector :=
  match s.checkSelectorsQueue 1 with
  | .error e => (some e, s)
  | .ok _ => (none, { currentSelectorInQueue := 1, resultSelector := value })

/-- `id(value)` (source lines 145-150). -/
def id (s : Selector) (value : String) : Option String × Selector :=
  match s.checkSelectorsQueue 2 with
  | .error e => (some e, s)
  | .ok _ => (none, { currentSelectorInQueue := 2,
                      resultSelector := s.resultSelector ++ "#" ++ value })

/-- `class(value)` (source lines 152-157). -/
def «class» (s : Selector) (value : String) : Option String × Selector :=
  match s.checkSelectorsQueue 3 with
  | .error e => (some e, s)
  | .ok _ => (none, { currentSelectorInQueue := 3,
                      resultSelector := s.resultSelector ++ "." ++ value })

/-- `attr(value)` (source lines 159-164). -/
def attr (s : Selector) (value : String) : Option String × Selector :=
  match s.checkSelectorsQueue 4 with
  | .error e => (some e, s)
  | .ok _ => (none, { currentSelectorInQueue := 4,
                      resultSelector := s.resultSelector ++ "[" ++ value ++ "]" })

/-- `pseudoClass(value)` (source lines 166-171). -/
def pseudoClass (s : Selector) (value : String) : Option String × Selector :=
  match s.checkSelectorsQueue 5 with
  | .error e => (some e, s)
  | .ok _ => (none, { currentSelectorInQueue := 5,
                      resultSelector := s.resultSelector ++ ":" ++ value })

/-- `pseudoElement(value)` (source lines 173-178). -/
def pseudoElement (s : Selector) (value : String) : Option String × Selector :=
  match s.checkSelectorsQueue 6 with
  | .error e => (some e, s)
  | .ok _ => (none, { currentSelectorInQueue := 6,
                      resultSelector := s.resultSelector ++ "::" ++ value })

/-- `stringify()` (source lines 185-187). -/
def stringify (s : Selector) : String := s.resultSelector

/-- `combine(selector1, combinator, selector2)` (source lines 180-183):
only `resultSelector` is assigned; `currentSelectorInQueue` is untouched. -/
def combine (s : Selector) (selector1 : Selector) (combinator : String)
    (selector2 : Selector) : Selector :=
  { s with resultSelector :=
      selector1.stringify ++ " " ++ combinator ++ " " ++ selector2.stringify }

end Selector

namespace cssSelectorBuilder

/-- Facade `cssSelectorBuilder.element` (source lines 195-197). -/
def element (value : String) : Option String × Selector := Selector.new.element value

/-- Facade `cssSelectorBuilder.id` (source lines 199-201). -/
def id (value : String) : Option String × Selector := Selector.new.id value

/-- Facade `cssSelectorBuilder.class` (source lines 203-205). -/
def «class» (value : String) : Option String × Selector := Selector.new.«class» value

/-- Facade `cssSelectorBuilder.attr` (source lines 207-209). -/
def attr (value : String) : Option String × Selector := Selector.new.attr value

/-- Facade `cssSelectorBuilder.pseudoClass` (source lines 211-213). -/
def pseudoClass (value : String) : Option String × Selector :=
  Selector.new.pseudoClass value

/-- Facade `cssSelectorBuilder.pseudoElement` (source lines 215-217). -/
def pseudoElement (value : String) : Option String × Selector :=
  Selector.new.pseudoElement value

/-- Facade `cssSelectorBuilder.combine` (source lines 219-221). -/
def combine (selector1 : Selector) (combinator : String) (selector2 : Selector) : Selector :=
  Selector.new.combine selector1 combinator selector2

end cssSelectorBuilder

/-- One fragment-append call (one of the six fragment methods with its value). -/
inductive Call where
  | element (value : String)
  | id (value : String)
  | classC (value : String)
  | attr (value : String)
  | pseudoClass (value : String)
  | pseudoElement (value : String)
deriving DecidableEq, Repr

namespace Call

/-- The queue rank each method passes to `checkSelectorsQueue`. -/
def rank : Call → Nat
  | .element _ => 1
  | .id _ => 2
  | .classC _ => 3
  | .attr _ => 4
  | .pseudoClass _ => 5
  | .pseudoElement _ => 6

/-- The rendered text of a fragment: element `value`, id `#value`,
class `.value`, attr `[value]`, pseudo-class `:value`, pseudo-element `::value`. -/
def render : Call → String
  | .element v => v
  | .id v => "#" ++ v
  | .classC v => "." ++ v
  | .attr v => "[" ++ v ++ "]"
  | .pseudoClass v => ":" ++ v
  | .pseudoElement v => "::" ++ v

/-- Whether the call is an `element` call (the one whose method assigns
rather than appends). -/
def isElement : Call → Bool
  | .element _ => true
  | _ => false

end Call

/-- Dispatch a call to the corresponding `Selector` method. -/
def applyCall (s : Selector) : Call → Option String × Selector
  | .element v => s.element v
  | .id v => s.id v
  | .classC v => s.«class» v
  | .attr v => s.attr v
  | .pseudoClass v => s.pseudoClass v
  | .pseudoElement v => s.pseudoElement v

/-- Run a chain of fragment calls; a thrown error aborts the chain
(in JS the exception propagates out of the method-call chain). -/
def runCalls (s : Selector) : List Call → Except String Selector
  | [] => .ok s
  | c :: cs =>
    match applyCall s c with
    | (some e, _) => .error e
    | (none, s') => runCalls s' cs

/-- `validFrom r0 cs`: starting from queue position `r0`, every call in `cs`
passes `checkSelectorsQueue` (no sequence violation, no repeat violation). -/
def validFrom (r0 : Nat) : List Call → Bool
  | [] => true
  | c :: cs =>
    (decide (r0 ≤ c.rank)
      && !(decide (r0 = c.rank) && (decide (c.rank = 1) || decide (c.rank = 2) || decide (c.rank = 6))))
    && validFrom c.rank cs

/-- `ranksOK r0 cs`: the ranks of `cs` are non-decreasing, starting at or
above `r0`. -/
def ranksOK (r0 : Nat) : List Call → Bool
  | [] => true
  | c :: cs => decide (r0 ≤ c.rank) && ranksOK c.rank cs

/-- Number of calls in `cs` whose rank is `r`. -/
def countRank (r : Nat) (cs : List Call) : Nat :=
  (cs.filter (fun c => c.rank = r)).length

/-- The post-state of a successful fragment call: the queue position becomes
the call's rank, and the rendered text is appended — except for `element`,
whose method assigns the value instead of appending it. -/
def nextState (s : Selector) (c : Call) : Selector :=
  { currentSelectorInQueue := c.rank,
    resultSelector := if c.isElement then c.render else s.resultSelector ++ c.render }

/-- Concatenation, in call order, of the rendered form of each fragment,
with no separators. -/
def renderedText : List Call → String
  | [] => ""
  | c :: cs => c.render ++ renderedText cs

/-- The object produced by `new Rectangle(width, height)` (source lines 23-30):
two numeric fields and a `getArea` method reading them. -/
structure RectangleObj where
  width : Int
  height : Int
deriving DecidableEq, Repr

/-- `function Rectangle(width, height)`: assigns both fields. -/
def Rectangle (width height : Int) : RectangleObj :=
  { width := width, height := height }

/-- `getArea()` (source lines 26-28): `this.width * this.height`. -/
def RectangleObj.getArea (r : RectangleObj) : Int := r.width * r.height

/-- `JSON.stringify` restricted to flat objects with integer fields: keys in
property (insertion) order, each field rendered `"key":value`, wrapped in
braces. -/
def jsonStringifyObj (o : List (String × Int)) : String :=
  "\x7b"
    ++ String.intercalate "," (o.map (fun kv => "\"" ++ kv.1 ++ "\":" ++ toString kv.2))
    ++ "\x7d"

/-- `getJSON(obj)` (source lines 43-45): `JSON.stringify(obj)`. -/
def getJSON (obj : List (String × Int)) : String := jsonStringifyObj obj

/-- Read a run of decimal digits, most significant first. -/
def parseDigits : List Char → Nat → Nat × List Char
  | [], acc => (acc, [])
  | c :: rest, acc =>
    if c.isDigit then parseDigits rest (10 * acc + (c.toNat - 48)) else (acc, c :: rest)

/-- Read the characters of a quoted key up to the closing quote. -/
def parseKeyChars : List Char → String → Option (String × List Char)
  | [], _ => none
  | c :: rest, acc => if c = '"' then some (acc, rest) else parseKeyChars rest (acc.push c)

/-- Parse the `"key":nat` entries of a flat JSON object body (after the
opening brace), fuelled by the remaining length. -/
def parseEntries : Nat → List Char → List (String × Int) → Option (List (String × Int))
  | 0, _, _ => none
  | fuel + 1, cs, acc =>
    match cs with
    | '"' :: rest =>
      match parseKeyChars rest "" with
      | none => none
      | some (k, rest2) =>
        match rest2 with
        | ':' :: rest3 =>
          match rest3 with
          | d :: _ =>
            if d.isDigit then
              match parseDigits rest3 0 with
              | (n, rest4) =>
                match rest4 with
                | ',' :: rest5 => parseEntries fuel rest5 (acc ++ [(k, (n : Int))])
                | '\x7d' :: rest6 =>
                  if rest6.isEmpty then some (acc ++ [(k, (n : Int))]) else none
                | _ => none
            else none
          | [] => none
        | _ => none
    | _ => none

/-- `JSON.parse` restricted to flat `"key":nat` objects; yields the fields
in their textual order. -/
def jsonParseObj (s : String) : Option (List (String × Int)) :=
  match s.data with
  | '\x7b' :: '\x7d' :: rest => if rest.isEmpty then some [] else none
  | '\x7b' :: rest => parseEntries (rest.length + 1) rest []
  | _ => none

/-- `Object.values` of a parsed flat object: the field values in order. -/
def objectValues (o : List (String × Int)) : List Int := o.map Prod.snd

/-- `fromJSON(proto, json)` (source lines 59-61): parse the JSON text, then
call the shape's constructor with the parsed values as positional
arguments (`new proto.constructor(...Object.values(JSON.parse(json)))`). -/
def fromJSON {α : Type} (ctor : List Int → Option α) (json : String) : Option α :=
  match jsonParseObj json with
  | none => none
  | some o => ctor (objectValues o)

/-- A shape with `height` and `width` fields. -/
structure HeightWidth where
  height : Int
  width : Int
deriving DecidableEq, Repr

/-- Shape descriptor whose constructor consumes `(height, width)` as
positional arguments, in that order. -/
def heightWidthCtor : List Int → Option HeightWidth
  | [h, w] => some { height := h, width := w }
  | _ => none

/-- `checkSelectorsQueue` computed from the rank alone. -/
theorem checkSelectorsQueue_eq (s : Selector) (r : Nat) :
    s.checkSelectorsQueue r =
      if s.currentSelectorInQueue > r then .error errorMessageForSequence
      else if s.currentSelectorInQueue = r ∧ (r = 1 ∨ r = 2 ∨ r = 6) then
        .error errorMessageForRepeat
      else .ok () := rfl

/-- Characterization of one dispatched call in terms of `nextState`. -/
theorem applyCall_eq (s : Selector) (c : Call) :
    applyCall s c =
      if s.currentSelectorInQueue > c.rank then (some errorMessageForSequence, s)
      else if s.currentSelectorInQueue = c.rank ∧ (c.rank = 1 ∨ c.rank = 2 ∨ c.rank = 6) then
        (some errorMessageForRepeat, s)
      else (none, nextState s c) := by
  cases c <;>
    simp only [applyCall, Selector.element, Selector.id, Selector.«class», Selector.attr,
      Selector.pseudoClass, Selector.pseudoElement, Selector.checkSelectorsQueue,
      nextState, Call.rank, Call.render, Call.isElement] <;>
    split_ifs <;>
    simp_all [String.append_assoc]

/-- A call succeeds exactly when `validFrom` accepts it as a head. -/
theorem applyCall_none_iff (s : Selector) (c : Call) :
    (applyCall s c).1 = none ↔
      (s.currentSelectorInQueue ≤ c.rank
        ∧ ¬(s.currentSelectorInQueue = c.rank ∧ (c.rank = 1 ∨ c.rank = 2 ∨ c.rank = 6))) := by
  rw [applyCall_eq]
  split
  · rename_i h
    simp [Nat.not_le.mpr h]
  · split
    · rename_i h h2
      simp_all
    · rename_i h h2
      simp_all [Nat.not_lt.mp h]

/-- A successful call yields exactly `nextState`. -/
theorem applyCall_of_ok (s : Selector) (c : Call)
    (h1 : s.currentSelectorInQueue ≤ c.rank)
    (h2 : ¬(s.currentSelectorInQueue = c.rank ∧ (c.rank = 1 ∨ c.rank = 2 ∨ c.rank = 6))) :
    applyCall s c = (none, nextState s c) := by
  rw [applyCall_eq, if_neg (by omega), if_neg h2]

/-- On success the queue position becomes the call's rank. -/
theorem applyCall_rank (s : Selector) (c : Call) (s' : Selector)
    (h : applyCall s c = (none, s')) : s'.currentSelectorInQueue = c.rank := by
  rw [applyCall_eq] at h
  split at h
  · exact absurd (congrArg Prod.fst h) (by simp)
  · split at h
    · exact absurd (congrArg Prod.fst h) (by simp)
    · cases h; rfl

/-- Unfolding of `validFrom` at a cons, in propositional form. -/
theorem validFrom_cons (r0 : Nat) (c : Call) (cs : List Call) :
    validFrom r0 (c :: cs) = true ↔
      (r0 ≤ c.rank ∧ ¬(r0 = c.rank ∧ (c.rank = 1 ∨ c.rank = 2 ∨ c.rank = 6))
        ∧ validFrom c.rank cs = true) := by
  simp [validFrom]
  tauto

/-- Unfolding of `countRank` at a cons. -/
theorem countRank_cons (r : Nat) (c : Call) (cs : List Call) :
    countRank r (c :: cs) = (if c.rank = r then 1 else 0) + countRank r cs := by
  simp only [countRank, List.filter]
  split <;> rename_i h <;> simp_all [Nat.add_comm]

/-- Every rank reachable in a valid trace is at least the starting position. -/
theorem validFrom_rank_le (r0 : Nat) (cs : List Call)
    (h : validFrom r0 cs = true) : ∀ c ∈ cs, r0 ≤ c.rank := by
  induction cs generalizing r0 with
  | nil => simp
  | cons c cs ih =>
    rw [validFrom_cons] at h
    intro d hd
    rcases List.mem_cons.mp hd with rfl | hd
    · exact h.1
    · exact Nat.le_trans h.1 (ih c.rank h.2.2 d hd)

/-- A valid trace has non-decreasing ranks. -/
theorem validFrom_sorted (r0 : Nat) (cs : List Call)
    (h : validFrom r0 cs = true) : List.Sorted (· ≤ ·) (cs.map Call.rank) := by
  induction cs generalizing r0 with
  | nil => simp
  | cons c cs ih =>
    rw [validFrom_cons] at h
    rw [List.map_cons, List.sorted_cons]
    refine ⟨?_, ih c.rank h.2.2⟩
    intro b hb
    rcases List.mem_map.mp hb with ⟨d, hd, rfl⟩
    exact validFrom_rank_le c.rank cs h.2.2 d hd

/-- A trace all of whose ranks exceed `r` contains no call of rank `r`. -/
theorem countRank_eq_zero (r : Nat) (cs : List Call)
    (h : ∀ d ∈ cs, r < d.rank) : countRank r cs = 0 := by
  simp only [countRank, List.length_eq_zero, List.filter_eq_nil_iff,
    decide_eq_true_eq]
  intro d hd hdr
  exact absurd hdr (Nat.ne_of_gt (h d hd))

/-- In a valid trace, each non-repeatable rank (1, 2, 6) occurs at most once,
and not at all when the trace already starts at that rank. -/
theorem validFrom_count (r0 : Nat) (cs : List Call) (r : Nat)
    (hr : r = 1 ∨ r = 2 ∨ r = 6)
    (h : validFrom r0 cs = true) :
    countRank r cs + (if r0 = r then 1 else 0) ≤ 1 := by
  induction cs generalizing r0 with
  | nil => simp [countRank]; split <;> omega
  | cons c cs ih =>
    rw [validFrom_cons] at h
    rw [countRank_cons]
    have ihc := ih c.rank h.2.2
    by_cases hcr : c.rank = r
    · subst hcr
      have hr0 : ¬ r0 = c.rank := fun he => h.2.1 ⟨he, hr⟩
      have hz : countRank c.rank cs = 0 := by
        simp at ihc
        omega
      simp [hz, hr0]
    · simp only [if_neg hcr] at ihc ⊢
      by_cases hr0 : r0 = r
      · -- the start is already at rank r and the next rank differs, hence
        -- exceeds it; no later call can have rank r
        have hz : countRank r cs = 0 := by
          refine countRank_eq_zero r cs (fun d hd => ?_)
          have h1 : c.rank ≤ d.rank := validFrom_rank_le c.rank cs h.2.2 d hd
          have h2 : r0 ≤ c.rank := h.1
          omega
        simp [hz, hr0]
      · simp only [if_neg hr0]
        omega

/-- A valid trace starting at rank 1 or higher has all ranks at least 2. -/
theorem validFrom_rank_ge_two (r0 : Nat) (cs : List Call)
    (h : validFrom r0 cs = true) (h1 : 1 ≤ r0) :
    ∀ c ∈ cs, 2 ≤ c.rank := by
  induction cs generalizing r0 with
  | nil => simp
  | cons d cs ih =>
    rw [validFrom_cons] at h
    have hd2 : 2 ≤ d.rank := by
      rcases Nat.lt_or_ge r0 d.rank with hlt | hge
      · omega
      · have he : r0 = d.rank := Nat.le_antisymm h.1 hge
        by_cases h1d : d.rank = 1
        · exact absurd ⟨he, Or.inl h1d⟩ h.2.1
        · omega
    intro c hc
    rcases List.mem_cons.mp hc with rfl | hc
    · exact hd2
    · exact ih d.rank h.2.2 (by omega) c hc

/-- A valid trace starting at rank 1 or higher contains no `element` call. -/
theorem validFrom_no_element (r0 : Nat) (cs : List Call)
    (h : validFrom r0 cs = true) (h1 : 1 ≤ r0) :
    ∀ c ∈ cs, c.isElement = false := by
  intro c hc
  have h2 := validFrom_rank_ge_two r0 cs h h1 c hc
  cases c <;> simp_all [Call.rank, Call.isElement]

/-- Every rank is at least 1. -/
theorem call_rank_pos (c : Call) : 1 ≤ c.rank := by
  cases c <;> simp [Call.rank]

/-- A successful chain means every call passed `checkSelectorsQueue`. -/
theorem runCalls_validFrom (cs : List Call) (s s' : Selector)
    (h : runCalls s cs = .ok s') :
    validFrom s.currentSelectorInQueue cs = true := by
  induction cs generalizing s with
  | nil => simp [validFrom]
  | cons c cs ih =>
    simp only [runCalls] at h
    split at h
    · cases h
    · rename_i s1 heq
      rw [validFrom_cons]
      have hnone : (applyCall s c).1 = none := by rw [heq]
      obtain ⟨h1, h2⟩ := (applyCall_none_iff s c).mp hnone
      have hrank : s1.currentSelectorInQueue = c.rank := applyCall_rank s c s1 heq
      refine ⟨h1, h2, ?_⟩
      have := ih s1 h
      rwa [hrank] at this
  
/-- If every call passes `checkSelectorsQueue`, the chain succeeds. -/
theorem validFrom_runCalls (cs : List Call) (s : Selector)
    (h : validFrom s.currentSelectorInQueue cs = true) :
    ∃ s', runCalls s cs = .ok s' := by
  induction cs generalizing s with
  | nil => exact ⟨s, rfl⟩
  | cons c cs ih =>
    rw [validFrom_cons] at h
    have happ := applyCall_of_ok s c h.1 h.2.1
    have hv1 : validFrom (nextState s c).currentSelectorInQueue cs = true := h.2.2
    obtain ⟨s', hrun⟩ := ih (nextState s c) hv1
    exact ⟨s', by simp only [runCalls, happ]; exact hrun⟩

/-- The queue position never decreases along a successful chain. -/
theorem runCalls_rank_mono (cs : List Call) (s s' : Selector)
    (h : runCalls s cs = .ok s') :
    s.currentSelectorInQueue ≤ s'.currentSelectorInQueue := by
  induction cs generalizing s with
  | nil => cases h; exact Nat.le_refl _
  | cons c cs ih =>
    simp only [runCalls] at h
    split at h
    · cases h
    · rename_i s1 heq
      have hnone : (applyCall s c).1 = none := by rw [heq]
      have h1 := ((applyCall_none_iff s c).mp hnone).1
      have hrank : s1.currentSelectorInQueue = c.rank := applyCall_rank s c s1 heq
      have := ih s1 h
      omega

/-- A valid chain in which only the possible leading `element` call sees an
empty accumulated text produces the concatenation of the rendered fragments
appended to the starting text. -/
theorem runCalls_text (cs : List Call) (s : Selector)
    (hv : validFrom s.currentSelectorInQueue cs = true)
    (he : s.resultSelector = "" ∨ ∀ c ∈ cs, c.isElement = false) :
    ∃ s', runCalls s cs = .ok s'
      ∧ s'.resultSelector = s.resultSelector ++ renderedText cs := by
  induction cs generalizing s with
  | nil => exact ⟨s, rfl, by simp [renderedText]⟩
  | cons c cs ih =>
    rw [validFrom_cons] at hv
    obtain ⟨h1, h2, h3⟩ := hv
    have happ := applyCall_of_ok s c h1 h2
    have hv1 : validFrom (nextState s c).currentSelectorInQueue cs = true := h3
    have htext : (nextState s c).resultSelector = s.resultSelector ++ c.render := by
      by_cases hel : c.isElement = true
      · have hs : s.resultSelector = "" := by
          rcases he with hs | hall
          · exact hs
          · exact absurd (hall c (List.mem_cons_self c cs)) (by simp [hel])
        simp [nextState, hel, hs]
      · simp [nextState, hel]
    have hne : ∀ d ∈ cs, d.isElement = false :=
      validFrom_no_element c.rank cs h3 (call_rank_pos c)
    obtain ⟨s', hrun, htxt⟩ := ih (nextState s c) hv1 (Or.inr hne)
    refine ⟨s', by simp only [runCalls, happ]; exact hrun, ?_⟩
    rw [htxt, htext, renderedText, String.append_assoc]

/-- Unfolding of `ranksOK` at a cons, in propositional form. -/
theorem ranksOK_cons (r0 : Nat) (c : Call) (cs : List Call) :
    ranksOK r0 (c :: cs) = true ↔ (r0 ≤ c.rank ∧ ranksOK c.rank cs = true) := by
  simp [ranksOK]

/-- Non-decreasing ranks with at most one occurrence of each non-repeatable
rank pass every `checkSelectorsQueue` check. -/
theorem ranksOK_validFrom (cs : List Call) (r0 : Nat)
    (h : ranksOK r0 cs = true)
    (h1 : countRank 1 cs + (if r0 = 1 then 1 else 0) ≤ 1)
    (h2 : countRank 2 cs + (if r0 = 2 then 1 else 0) ≤ 1)
    (h6 : countRank 6 cs + (if r0 = 6 then 1 else 0) ≤ 1) :
    validFrom r0 cs = true := by
  induction cs generalizing r0 with
  | nil => simp [validFrom]
  | cons c cs ih =>
    rw [ranksOK_cons] at h
    rw [validFrom_cons]
    rw [countRank_cons] at h1 h2 h6
    refine ⟨h.1, ?_, ?_⟩
    · rintro ⟨he, hr | hr | hr⟩
      · rw [hr] at he; simp [hr, he] at h1
      · rw [hr] at he; simp [hr, he] at h2
      · rw [hr] at he; simp [hr, he] at h6
    · refine ih c.rank h.2 ?_ ?_ ?_
      · by_cases hc : c.rank = 1 <;> simp [hc] at h1 ⊢ <;> omega
      · by_cases hc : c.rank = 2 <;> simp [hc] at h2 ⊢ <;> omega
      · by_cases hc : c.rank = 6 <;> simp [hc] at h6 ⊢ <;> omega

/-- Repeatable ranks accept arbitrarily many consecutive identical calls. -/
theorem validFrom_replicate_repeatable (c : Call)
    (hc : ¬(c.rank = 1 ∨ c.rank = 2 ∨ c.rank = 6)) (n : Nat) :
    validFrom c.rank (List.replicate n c) = true := by
  induction n with
  | zero => simp [validFrom]
  | succ n ih =>
    rw [List.replicate_succ, validFrom_cons]
    exact ⟨Nat.le_refl _, fun hx => hc hx.2, ih⟩

/-- From a fresh builder, `n` consecutive calls of a repeatable rank succeed. -/
theorem replicate_repeatable_ok (c : Call)
    (hc : ¬(c.rank = 1 ∨ c.rank = 2 ∨ c.rank = 6)) (n : Nat) :
    ∃ t, runCalls Selector.new (List.replicate n c) = .ok t := by
  apply validFrom_runCalls
  cases n with
  | zero => simp [validFrom]
  | succ n =>
    rw [List.replicate_succ, validFrom_cons]
    refine ⟨Nat.zero_le _, ?_, validFrom_replicate_repeatable c hc n⟩
    rintro ⟨he, _⟩
    have := call_rank_pos c
    rw [show Selector.new.currentSelectorInQueue = 0 from rfl] at he
    omega

/-- C1 counterexample: a combined builder has queue position 0 and text
`"a + b"`; `element('c')` then succeeds but sets the text to `"c"` instead of
appending, so the original claim's success branch ("appends the fragment's
rendered text") is false at this input. -/
theorem claim_C1_counterexample :
    cssSelectorBuilder.combine ⟨"a", 1⟩ "+" ⟨"b", 1⟩ = ⟨"a + b", 0⟩
      ∧ applyCall ⟨"a + b", 0⟩ (Call.element "c") = (none, ⟨"c", 1⟩)
      ∧ ("c" : String) ≠ "a + b" ++ "c" :=
  ⟨rfl, rfl, by decide⟩

/-- C1 (amended): for every fragment-append call with new rank `r` on a
builder whose last-added rank is `lastRank`: if `lastRank > r` the call fails
with the sequence violation; else if `lastRank = r` and `r ∈ {1, 2, 6}` it
fails with the repeat violation; otherwise it succeeds, sets `lastRank` to
`r`, and appends the fragment's rendered text — except that `element` sets
the text to its value, replacing any existing text (which coincides with
appending only when the accumulated text is empty). -/
theorem claim_C1_fragment_step (s : Selector) (c : Call) :
    applyCall s c =
      if s.currentSelectorInQueue > c.rank then (some errorMessageForSequence, s)
      else if s.currentSelectorInQueue = c.rank ∧ (c.rank = 1 ∨ c.rank = 2 ∨ c.rank = 6) then
        (some errorMessageForRepeat, s)
      else (none, nextState s c) :=
  applyCall_eq s c

/-- C2: for every sequence of fragment calls whose ranks are non-decreasing
and in which ranks 1, 2 and 6 each occur at most once, no call raises and
`stringify()` returns the concatenation, in call order, of each fragment's
rendered form with no extra separators. -/
theorem claim_C2_valid_sequence_stringify (cs : List Call)
    (hranks : ranksOK 0 cs = true)
    (h1 : countRank 1 cs ≤ 1) (h2 : countRank 2 cs ≤ 1) (h6 : countRank 6 cs ≤ 1) :
    ∃ s', runCalls Selector.new cs = .ok s' ∧ s'.stringify = renderedText cs := by
  have hv : validFrom Selector.new.currentSelectorInQueue cs = true := by
    refine ranksOK_validFrom cs 0 hranks ?_ ?_ ?_ <;> simpa
  obtain ⟨s', hrun, htxt⟩ := runCalls_text cs Selector.new hv (Or.inl rfl)
  refine ⟨s', hrun, ?_⟩
  show s'.resultSelector = renderedText cs
  rw [htxt]
  exact String.empty_append _

/-- C2 witness: a full in-order chain over all six categories, with a class
repeat, stringifies to the concatenation of the rendered fragments. -/
theorem claim_C2_witness :
    ∃ s', runCalls Selector.new [Call.element "a", Call.id "m", Call.classC "c1",
        Call.classC "c2", Call.attr "x", Call.pseudoClass "p", Call.pseudoElement "q"] = .ok s'
      ∧ s'.stringify = renderedText [Call.element "a", Call.id "m", Call.classC "c1",
        Call.classC "c2", Call.attr "x", Call.pseudoClass "p", Call.pseudoElement "q"] :=
  claim_C2_valid_sequence_stringify _ (by decide) (by decide) (by decide) (by decide)

/-- C3: for every pair of selectors and every combinator string (no
validation), the combined builder stringifies to the two pre-rendered strings
joined by single space, combinator, single space. -/
theorem claim_C3_combine_is_join (selector1 : Selector) (combinator : String)
    (selector2 : Selector) :
    (cssSelectorBuilder.combine selector1 combinator selector2).stringify
      = selector1.stringify ++ " " ++ combinator ++ " " ++ selector2.stringify := rfl

/-- C4: over every successful run of fragment calls on one fresh builder, the
appended ranks are non-decreasing (never a rank strictly below an earlier
one), ranks 1, 2 and 6 each occur at most once, while class, attr and
pseudo-class calls can be repeated any number of times. -/
theorem claim_C4_trace_invariant (cs : List Call) (s' : Selector)
    (h : runCalls Selector.new cs = .ok s') :
    List.Sorted (· ≤ ·) (cs.map Call.rank)
      ∧ countRank 1 cs ≤ 1 ∧ countRank 2 cs ≤ 1 ∧ countRank 6 cs ≤ 1
      ∧ (∀ (n : Nat) (v : String),
          ∃ t, runCalls Selector.new (List.replicate n (Call.classC v)) = .ok t)
      ∧ (∀ (n : Nat) (v : String),
          ∃ t, runCalls Selector.new (List.replicate n (Call.attr v)) = .ok t)
      ∧ (∀ (n : Nat) (v : String),
          ∃ t, runCalls Selector.new (List.replicate n (Call.pseudoClass v)) = .ok t) := by
  have hv : validFrom 0 cs = true := runCalls_validFrom cs Selector.new s' h
  refine ⟨validFrom_sorted 0 cs hv, ?_, ?_, ?_, ?_, ?_, ?_⟩
  · have := validFrom_count 0 cs 1 (Or.inl rfl) hv
    simpa using this
  · have := validFrom_count 0 cs 2 (Or.inr (Or.inl rfl)) hv
    simpa using this
  · have := validFrom_count 0 cs 6 (Or.inr (Or.inr rfl)) hv
    simpa using this
  · intro n v
    exact replicate_repeatable_ok (Call.classC v) (by simp [Call.rank]) n
  · intro n v
    exact replicate_repeatable_ok (Call.attr v) (by simp [Call.rank]) n
  · intro n v
    exact replicate_repeatable_ok (Call.pseudoClass v) (by simp [Call.rank]) n

/-- C4 witness: the successful run id, class satisfies the invariant. -/
theorem claim_C4_witness :
    List.Sorted (· ≤ ·) ([Call.id "i", Call.classC "c"].map Call.rank)
      ∧ countRank 1 [Call.id "i", Call.classC "c"] ≤ 1
      ∧ countRank 2 [Call.id "i", Call.classC "c"] ≤ 1
      ∧ countRank 6 [Call.id "i", Call.classC "c"] ≤ 1
      ∧ (∀ (n : Nat) (v : String),
          ∃ t, runCalls Selector.new (List.replicate n (Call.classC v)) = .ok t)
      ∧ (∀ (n : Nat) (v : String),
          ∃ t, runCalls Selector.new (List.replicate n (Call.attr v)) = .ok t)
      ∧ (∀ (n : Nat) (v : String),
          ∃ t, runCalls Selector.new (List.replicate n (Call.pseudoClass v)) = .ok t) :=
  claim_C4_trace_invariant [Call.id "i", Call.classC "c"] ⟨"#i.c", 3⟩ rfl

/-- C5 counterexample: element, class, element — the second `element` call,
with an intervening `class`, raises the sequence violation, not the repeat
violation, so the "regardless of which other fragment calls intervene"
claim is false. -/
theorem claim_C5_counterexample :
    runCalls Selector.new [Call.element "a", Call.classC "b", Call.element "c"]
        = .error errorMessageForSequence
      ∧ errorMessageForSequence ≠ errorMessageForRepeat :=
  ⟨rfl, by decide⟩

/-- C5 (amended): a second append of a non-repeatable category (rank 1, 2
or 6) after a successful first append always fails: with the repeat
violation when the last-added rank still equals that category's rank (no
intervening higher-ranked append), and with the sequence violation
otherwise. -/
theorem claim_C5_second_append_fails (s s1 s2 : Selector) (c c' : Call) (cs : List Call)
    (hrank : c'.rank = c.rank)
    (hnr : c.rank = 1 ∨ c.rank = 2 ∨ c.rank = 6)
    (h1 : applyCall s c = (none, s1))
    (h2 : runCalls s1 cs = .ok s2) :
    applyCall s2 c' = (some (if s2.currentSelectorInQueue = c.rank
        then errorMessageForRepeat else errorMessageForSequence), s2) := by
  have hs1 : s1.currentSelectorInQueue = c.rank := applyCall_rank s c s1 h1
  have hmono := runCalls_rank_mono cs s1 s2 h2
  rw [applyCall_eq, hrank]
  by_cases he : s2.currentSelectorInQueue = c.rank
  · rw [if_neg (by omega), if_pos ⟨he, hnr⟩, if_pos he]
  · have hgt : s2.currentSelectorInQueue > c.rank := by omega
    rw [if_pos hgt, if_neg he]

/-- C5 witness: `id` twice in a row on a fresh builder; the second call
raises the repeat violation. -/
theorem claim_C5_witness :
    applyCall ⟨"#x", 2⟩ (Call.id "y")
      = (some (if (Selector.mk "#x" 2).currentSelectorInQueue = (Call.id "x").rank
          then errorMessageForRepeat else errorMessageForSequence), ⟨"#x", 2⟩) :=
  claim_C5_second_append_fails Selector.new ⟨"#x", 2⟩ ⟨"#x", 2⟩ (Call.id "x") (Call.id "y") []
    rfl (Or.inr (Or.inl rfl)) rfl rfl

/-- C6 counterexample: a combined builder accepts a further `class` call,
which succeeds and extends the combined text, so the claim that every
fragment-append call on a combined builder fails is false. -/
theorem claim_C6_counterexample :
    applyCall (cssSelectorBuilder.combine ⟨"a", 1⟩ "+" ⟨"b", 1⟩) (Call.classC "x")
      = (none, ⟨"a + b.x", 3⟩) := rfl

/-- C6 (amended): a builder produced by the facade's combine has last-added
rank 0, so it is not terminal: every fragment-append call on it succeeds,
appending its rendered text to the combined text (element replacing it). -/
theorem claim_C6_combined_accepts_fragments (selector1 : Selector) (combinator : String)
    (selector2 : Selector) (c : Call) :
    applyCall (cssSelectorBuilder.combine selector1 combinator selector2) c
      = (none, nextState (cssSelectorBuilder.combine selector1 combinator selector2) c) := by
  apply applyCall_of_ok
  · exact Nat.zero_le _
  · rintro ⟨he, _⟩
    have h1 := call_rank_pos c
    have h0 : 0 = c.rank := he
    omega

/-- C7 counterexample: on a builder with accumulated text `"d ~ e"` and
last-added rank 0 (as produced by combine), `element('f')` succeeds and the
text becomes `"f"`, not the claimed concatenation `"d ~ ef"`. -/
theorem claim_C7_counterexample :
    Selector.element ⟨"d ~ e", 0⟩ "f" = (none, ⟨"f", 1⟩)
      ∧ ("f" : String) ≠ "d ~ e" ++ "f" :=
  ⟨rfl, by decide⟩

/-- C7 (amended): a successful `element(value)` call sets the builder's
last-rank to 1 and sets the accumulated text to `value`, replacing any
existing accumulated text rather than concatenating after it. -/
theorem claim_C7_element_assigns (s : Selector) (value : String) (s' : Selector)
    (h : s.element value = (none, s')) :
    s'.currentSelectorInQueue = 1 ∧ s'.resultSelector = value := by
  unfold Selector.element at h
  split at h
  · simp at h
  · cases h
    exact ⟨rfl, rfl⟩

/-- C7 witness: `element('a')` on a fresh builder. -/
theorem claim_C7_witness :
    (Selector.mk "a" 1).currentSelectorInQueue = 1
      ∧ (Selector.mk "a" 1).resultSelector = "a" :=
  claim_C7_element_assigns Selector.new "a" ⟨"a", 1⟩ rfl

/-- C8: whenever a fragment method raises (sequence or repeat violation),
the builder's state — accumulated text and last-added rank — is unchanged,
because the validity check runs before any mutation. -/
theorem claim_C8_error_preserves_state (s : Selector) (c : Call) (e : String)
    (h : (applyCall s c).1 = some e) :
    (applyCall s c).2 = s := by
  rw [applyCall_eq] at h ⊢
  split_ifs at h ⊢ <;> simp_all

/-- C8 witness: an out-of-order `id` call after a class fragment fails and
leaves the state untouched. -/
theorem claim_C8_witness : (applyCall ⟨"a.b", 3⟩ (Call.id "x")).2 = ⟨"a.b", 3⟩ :=
  claim_C8_error_preserves_state ⟨"a.b", 3⟩ (Call.id "x") errorMessageForSequence rfl

/-- C9: the rectangle factory stores both numeric parameters and `getArea()`
returns their product; with (10, 20) the fields are 10 and 20 and the area
is 200. -/
theorem claim_C9_rectangle (w h : Int) :
    (Rectangle w h).width = w ∧ (Rectangle w h).height = h
      ∧ (Rectangle w h).getArea = w * h
      ∧ (Rectangle 10 20).width = 10 ∧ (Rectangle 10 20).height = 20
      ∧ (Rectangle 10 20).getArea = 200 :=
  ⟨rfl, rfl, rfl, rfl, rfl, by decide⟩

/-- C10: serializing the object with fields height = 10, width = 20 yields
the canonical JSON text, and deserializing that text with a shape whose
constructor consumes (height, width) positionally reproduces the original
field values. -/
theorem claim_C10_json_roundtrip :
    getJSON [("height", 10), ("width", 20)] = "\x7b\"height\":10,\"width\":20\x7d"
      ∧ fromJSON heightWidthCtor (getJSON [("height", 10), ("width", 20)])
        = some { height := 10, width := 20 } :=
  ⟨by decide, by decide⟩
